import Mathlib

/-
Verification of the asynchronous child-process subsystem of textadept
(src/textadept_gtk.c, lines 833-1026): spawning, output monitoring,
exit detection, cleanup, and manual reads.  The C functions are embedded
as executable Lean definitions; the host event loop and the GLib channel
primitives (external collaborators) are modelled from the specification
where their code is not part of the repository.
-/

set_option maxHeartbeats 1000000

namespace Textadept

/-- status of a channel operation, mirroring GIOStatus
(G_IO_STATUS_NORMAL / EOF / AGAIN / ERROR). -/
inductive GStatus where
  | normal
  | eofS
  | againS
  | errorS
deriving DecidableEq

/-- an OS-level error as surfaced through GError: message and code. -/
abbrev GErr := String × Int

/-- Modelled from the spec: a pipe-transport read endpoint as seen through a
GIOChannel.  `buffered` is the buffering-mode flag toggled by the Manual
Reader; `pending` is the byte sequence immediately available for reading;
`eofFlag` records that the stream ends after `pending` (the child exited and
closed its end); `failure` injects an OS-level read failure, which the next
read reports instead of data. -/
structure Channel where
  buffered : Bool
  pending : List Char
  eofFlag : Bool
  failure : Option GErr
deriving DecidableEq

/-- result of one GLib channel read primitive: status, bytes read, the
channel afterwards, and the GError out-parameter. -/
structure PrimRead where
  status : GStatus
  bytes : List Char
  channel : Channel
  err : Option GErr
deriving DecidableEq

/-- split a byte sequence at its first newline, keeping the newline with the
left part; `none` when it holds no newline. -/
def splitAtNewline : List Char → Option (List Char × List Char)
  | [] => none
  | c :: cs =>
    if c = '\n' then some ([c], cs)
    else
      match splitAtNewline cs with
      | some (l, r) => some (c :: l, r)
      | none => none

/-- Modelled from the spec: the host channel's line read
(g_io_channel_read_line_string, an external collaborator).  It returns the
bytes up to and including the first newline; at end of stream it returns any
remaining unterminated bytes with normal status, or EOF status when nothing
remains; an injected OS failure yields error status carrying message and
code.  The case of no newline on a still-open stream blocks in the real
system; it is marked with the again status here and excluded by hypotheses. -/
def g_io_channel_read_line_string (ch : Channel) : PrimRead :=
  match ch.failure with
  | some e => ⟨.errorS, [], ch, some e⟩
  | none =>
    match splitAtNewline ch.pending with
    | some (l, r) => ⟨.normal, l, { ch with pending := r }, none⟩
    | none =>
      if ch.eofFlag then
        if ch.pending.isEmpty then ⟨.eofS, [], ch, none⟩
        else ⟨.normal, ch.pending, { ch with pending := [] }, none⟩
      else ⟨.againS, [], ch, none⟩

/-- Modelled from the spec: the host channel's read-to-end
(g_io_channel_read_to_end, an external collaborator).  At end of stream it
returns all remaining bytes, with EOF status when nothing remains; the
still-open case blocks in the real system and is marked again here. -/
def g_io_channel_read_to_end (ch : Channel) : PrimRead :=
  match ch.failure with
  | some e => ⟨.errorS, [], ch, some e⟩
  | none =>
    if ch.eofFlag then
      if ch.pending.isEmpty then ⟨.eofS, [], ch, none⟩
      else ⟨.normal, ch.pending, { ch with pending := [] }, none⟩
    else ⟨.againS, [], ch, none⟩

/-- Modelled from the spec: the host channel's bounded read
(g_io_channel_read_chars, an external collaborator): up to `n` of the
available bytes, EOF status when the stream has ended with nothing
available. -/
def g_io_channel_read_chars (n : Nat) (ch : Channel) : PrimRead :=
  match ch.failure with
  | some e => ⟨.errorS, [], ch, some e⟩
  | none =>
    if ch.pending.isEmpty then
      if ch.eofFlag then ⟨.eofS, [], ch, none⟩ else ⟨.againS, [], ch, none⟩
    else ⟨.normal, ch.pending.take n, { ch with pending := ch.pending.drop n }, none⟩

/-- lines 979-980: before a manual read the stdout channel is switched to
buffered mode if it is not already buffered. -/
def readPre (ch : Channel) : Channel :=
  if ch.buffered = false then { ch with buffered := true } else ch

/-- lines 992-993: after a manual read the channel is switched back to
unbuffered mode when its buffer holds no more readable bytes
(g_io_channel_get_buffer_condition masked with G_IO_IN). -/
def afterToggle (ch : Channel) : Channel :=
  if ch.pending.isEmpty then { ch with buffered := false } else ch

/-- byte at signed index `i` of `buf`; an index outside the buffer is an
out-of-bounds access in the C source, whose unspecified result is modelled
by the parameter `g`. -/
def charAtIdx (g : Char) (buf : List Char) (i : Int) : Char :=
  if 0 ≤ i ∧ i < (buf.length : Int) then buf.getD i.toNat g else g

/-- lines 994-995: the two conditional decrements of the returned length in
line mode: first a trailing newline, then a trailing carriage return of what
remains.  Each test reads the byte at index length-1; when the length is 0
that index lies outside the buffer in the C source (size_t underflow) and
the byte compared is the unspecified `g`.  (In that out-of-bounds case the C
decrement would also wrap to SIZE_MAX, where this model saturates at 0.) -/
def lineStripLen (g : Char) (buf : List Char) : Nat :=
  let len0 := buf.length
  let len1 := if charAtIdx g buf ((len0 : Int) - 1) = '\n' then len0 - 1 else len0
  if charAtIdx g buf ((len1 : Int) - 1) = '\r' then len1 - 1 else len1

/-- the manual-read mode selector (the option character of
read_process_output): read-one-line dropping the terminator, read-one-line
keeping it, read-to-end, read a fixed byte count. -/
inductive ReadMode where
  | line
  | lineKeep
  | toEnd
  | count
deriving DecidableEq

/-- the caller-visible outcome of a manual read: a byte buffer, the distinct
no-more-data result (NULL buffer with NULL error), or a read error carrying
the OS message and code. -/
inductive ReadResult where
  | bytes (buf : List Char)
  | endOfStream
  | readError (msg : String) (code : Int)
deriving DecidableEq

/-- placeholder error; the modelled primitives always set the error
out-parameter on error status, so it is never consulted. -/
def dfltErr : GErr := ("", 0)

/-- lines 981-991: dispatch of the manual read on the mode character; the
read-to-end branch converts EOF status to normal status (line 987). -/
def primFor (mode : ReadMode) (n : Nat) (ch : Channel) : PrimRead :=
  match mode with
  | .line | .lineKeep => g_io_channel_read_line_string ch
  | .toEnd =>
    let r := g_io_channel_read_to_end ch
    { r with status := if r.status = .eofS then .normal else r.status }
  | .count => g_io_channel_read_chars n ch

/-- lines 975-999 (read_process_output): switch the stdout channel to
buffered mode, perform the mode's read, switch back to unbuffered mode when
no bytes remain in the buffer, strip the line terminator in line mode, and
map EOF status to the no-more-data result and any other abnormal status to
a read error.  `g` stands for the unspecified byte an out-of-bounds strip
access would read; `n` is the requested byte count for count mode. -/
def read_process_output (g : Char) (mode : ReadMode) (n : Nat) (ch : Channel) :
    ReadResult × Nat × Channel :=
  let r := primFor mode n (readPre ch)
  let ch2 := afterToggle r.channel
  let len := match mode with
    | .line => lineStripLen g r.bytes
    | _ => r.bytes.length
  if r.status = .eofS then (.endOfStream, len, ch2)
  else if r.status ≠ .normal then
    (.readError (r.err.getD dfltErr).1 (r.err.getD dfltErr).2, len, ch2)
  else (.bytes (r.bytes.take len), len, ch2)

/-- one chunk delivered to the output sink, tagged with whether it came from
stdout (true) or stderr (false). -/
structure Chunk where
  bytes : List Char
  isStdout : Bool
deriving DecidableEq

/-- lines 850-854: the Output Monitor's read loop.  The C code repeats
`g_io_channel_read_chars` of BUFSIZ bytes, forwarding each chunk read with
normal status and positive length, while a read returns exactly BUFSIZ
bytes.  The iterations are unrolled here: one read, then recursion while the
chunk was full (BUFSIZ is positive on every platform; the guard records this
for termination). -/
def readLoop (bufsiz : Nat) (ch : Channel) : List (List Char) × Channel :=
  let r := g_io_channel_read_chars bufsiz ch
  let out := if r.status = .normal ∧ r.bytes ≠ [] then [r.bytes] else []
  if h : r.bytes.length = bufsiz ∧ 0 < bufsiz then
    let rest := readLoop bufsiz r.channel
    (out ++ rest.1, rest.2)
  else (out, r.channel)
termination_by ch.pending.length
decreasing_by
  have h : (g_io_channel_read_chars bufsiz ch).bytes.length = bufsiz ∧ 0 < bufsiz := h
  show (g_io_channel_read_chars bufsiz ch).channel.pending.length < ch.pending.length
  unfold g_io_channel_read_chars at h ⊢
  rcases hf : ch.failure with _ | e
  · rcases hp : ch.pending with _ | ⟨c, cs⟩
    · rcases he : ch.eofFlag <;> simp [hf, hp, he] at h ⊢ <;> omega
    · simp [hf, hp, List.length_take, List.length_drop] at h ⊢
      omega
  · simp [hf] at h
    omega

/-- result of one Output Monitor callback: whether the event-loop source is
kept, the chunks delivered to the sink, and the channel afterwards. -/
structure ReadChannelResult where
  keepSource : Bool
  delivered : List Chunk
  channel : Channel
deriving DecidableEq

/-- lines 846-856 (read_channel): the Output Monitor callback.  With the
process identity already cleared or without a readable condition it returns
false at once, touching nothing; otherwise it drains the channel in BUFSIZ
chunks, forwarding each to the sink tagged with the stream it came from, and
keeps the source only while the process is live and no hang-up is flagged. -/
def read_channel (bufsiz pid : Nat) (hasIn hasHup isStdout : Bool) (ch : Channel) :
    ReadChannelResult :=
  if pid = 0 ∨ hasIn = false then ⟨false, [], ch⟩
  else
    let r := readLoop bufsiz ch
    ⟨decide (pid ≠ 0) && !hasHup, r.1.map (fun b => ⟨b, isStdout⟩), r.2⟩

/-- the Process Handle (struct Process, lines 834-842) together with the
event-loop registrations owned for it and two observation counters: how
often the exit callback (process_exited) was invoked and how often the
cleanup body ran.  `pid` is the child identity, 0 once cleared — the
liveness flag; the three open flags are the transport endpoints. -/
structure ProcState where
  pid : Nat
  fstdinOpen : Bool
  fstdoutOpen : Bool
  fstderrOpen : Bool
  exitStatus : Option Nat
  stdoutWatch : Bool
  stderrWatch : Bool
  childWatch : Bool
  exitCallbacks : Nat
  cleanupRuns : Nat
deriving DecidableEq

/-- lines 873-884 (cleanup_process): deregister the stdout, stderr and
child watches, release and clear the child identity, close the three
transport endpoints, store the status, and invoke the exit callback.  Note
that the body is not guarded: it performs all of these steps whether or not
the liveness flag is still set. -/
def cleanup_process (status : Nat) (st : ProcState) : ProcState :=
  { st with
    stdoutWatch := false
    stderrWatch := false
    childWatch := false
    pid := 0
    fstdinOpen := false
    fstdoutOpen := false
    fstderrOpen := false
    exitStatus := some status
    exitCallbacks := st.exitCallbacks + 1
    cleanupRuns := st.cleanupRuns + 1 }

/-- line 887 (proc_exited): the Exit Monitor's child-watch callback hands
the status it received to cleanup_process unchanged. -/
def proc_exited (status : Nat) (st : ProcState) : ProcState :=
  cleanup_process status st

/-- line 961: a process is running while its identity has not been cleared. -/
def is_process_running (st : ProcState) : Bool := st.pid ≠ 0

/-- WIFEXITED of a raw POSIX wait status: the low seven bits are zero. -/
def wifexited (w : Nat) : Bool := w % 128 = 0

/-- WEXITSTATUS of a raw POSIX wait status: bits 8 to 15. -/
def wexitstatus (w : Nat) : Nat := w / 256 % 256

/-- line 966: the synchronous wait path's status normalization — the exit
code for a normal exit, the sentinel 1 for any abnormal termination. -/
def posixWaitNormalize (w : Nat) : Nat :=
  if wifexited w then wexitstatus w else 1

/-- the raw POSIX wait status waitpid reports for a child that exited
normally with the given code. -/
def rawExitStatus (code : Nat) : Nat := code % 256 * 256

/-- the raw POSIX wait status waitpid reports for a child terminated by the
given signal. -/
def rawSignalStatus (sig : Nat) : Nat := sig % 128

/-- lines 963-973 (wait_process, POSIX): reap the child with waitpid,
normalize the raw status, and run cleanup_process with it. -/
def wait_process (raw : Nat) (st : ProcState) : ProcState :=
  cleanup_process (posixWaitNormalize raw) st

/-- lines 967-972 (wait_process, handle-based platform): the exit code
reported by GetExitCodeProcess is handed to cleanup_process directly. -/
def wait_process_win (code : Nat) (st : ProcState) : ProcState :=
  cleanup_process code st

/-- a Process Handle as populated by a successful spawn with both monitors
requested: live identity, all endpoints open, all watches registered, no
status yet. -/
def spawnedState : ProcState :=
  { pid := 1234
    fstdinOpen := true
    fstdoutOpen := true
    fstderrOpen := true
    exitStatus := none
    stdoutWatch := true
    stderrWatch := true
    childWatch := true
    exitCallbacks := 0
    cleanupRuns := 0 }

/-- the completion signals that can reach one Process Handle through the
single-threaded event loop: the child watch firing with a raw status, the
synchronous wait being called (carrying the raw status waitpid will report),
and an output watch firing (whose callback's return decides whether that
watch stays registered). -/
inductive LoopEvent where
  | childExited (raw : Nat)
  | waitCalled (raw : Nat)
  | outputReady (isStdout keep : Bool)

/-- Modelled from the spec: the host event loop dispatches a watch only
while it is registered (a removed source never fires), and the scripting
glue's synchronous-wait entry point — whose code is outside this repository —
invokes the blocking wait only on a live handle (checked with
is_process_running), returning the stored status otherwise. -/
def loopStep (st : ProcState) (e : LoopEvent) : ProcState :=
  match e with
  | .childExited raw => if st.childWatch then proc_exited raw st else st
  | .waitCalled raw => if is_process_running st then wait_process raw st else st
  | .outputReady isStdout keep =>
    if isStdout then
      if st.stdoutWatch then { st with stdoutWatch := keep } else st
    else
      if st.stderrWatch then { st with stderrWatch := keep } else st

/-- a whole event-loop history applied to one Process Handle. -/
def runLoop (st : ProcState) (es : List LoopEvent) : ProcState :=
  es.foldl loopStep st

/-- state of the parser inside a command line: outside any quote, inside a
single-quoted word, inside a double-quoted word. -/
inductive QMode where
  | plain
  | single
  | double

/-- the single-quote character. -/
def squote : Char := Char.ofNat 39

/-- the double-quote character. -/
def dquote : Char := Char.ofNat 34

/-- the backslash character. -/
def bslash : Char := Char.ofNat 92

/-- quote balance of a command line: tracks quoting state across the
characters, honouring backslash escapes outside single quotes; balanced when
the line ends outside any quote. -/
def quotesBalancedAux : QMode → List Char → Bool
  | .plain, [] => true
  | .single, [] => false
  | .double, [] => false
  | .plain, c :: cs =>
    if c = squote then quotesBalancedAux .single cs
    else if c = dquote then quotesBalancedAux .double cs
    else if c = bslash then
      match cs with
      | [] => false
      | _ :: cs2 => quotesBalancedAux .plain cs2
    else quotesBalancedAux .plain cs
  | .single, c :: cs =>
    if c = squote then quotesBalancedAux .plain cs else quotesBalancedAux .single cs
  | .double, c :: cs =>
    if c = dquote then quotesBalancedAux .plain cs
    else if c = bslash then
      match cs with
      | [] => false
      | _ :: cs2 => quotesBalancedAux .double cs2
    else quotesBalancedAux .double cs

/-- whether a command line's quotes are balanced. -/
def quotesBalanced (cs : List Char) : Bool := quotesBalancedAux .plain cs

/-- message for a command-line parse failure. -/
def parseErrMsg : String := "Text ended before matching quote was found"

/-- message for an OS process-creation failure. -/
def spawnFailMsg : String := "Failed to execute child process"

/-- split a character sequence into whitespace-separated words; `cur` holds
the characters of the word in progress, most recent first. -/
def wordsAux : List Char → List Char → List (List Char)
  | cur, [] => if cur = [] then [] else [cur.reverse]
  | cur, c :: cs =>
    if c = ' ' then
      if cur = [] then wordsAux [] cs else cur.reverse :: wordsAux [] cs
    else wordsAux (c :: cur) cs

/-- Modelled from the spec: shell-word tokenization of the command line
(g_shell_parse_argv, an external collaborator): fails on unbalanced quotes,
otherwise yields the words.  Only its failure on quote imbalance matters to
the spawn path; the word split is a plain whitespace split. -/
def g_shell_parse_argv (cmd : String) : Option (List (List Char)) :=
  if quotesBalanced cmd.data then some (wordsAux [] cmd.data) else none

/-- lines 858-870 (new_channel): a read channel is always constructed for
the descriptor; a readiness watch is registered on it only when requested.
Returns (channel constructed, watch registered). -/
def new_channel (watch : Bool) : Bool × Bool := (true, watch)

/-- outcome of the POSIX spawn path: the error out-parameter, how many pipe
endpoints the call left open in the parent, whether a child was created,
and the channels and watches set up on success. -/
structure SpawnResult where
  error : Option String
  pipesCreated : Nat
  childCreated : Bool
  cstdoutCreated : Bool
  cstderrCreated : Bool
  stdoutWatched : Bool
  stderrWatched : Bool
  childWatched : Bool
deriving DecidableEq

/-- lines 889-906 and 953-957 (spawn, POSIX): tokenize the command line,
failing before anything is created when it is malformed; then create child
and pipes through g_spawn_async_with_pipes — which on failure reports an
error having released everything it created (an external collaborator,
modelled from the spec) — and on success build both read channels, watch
them as requested, and register the child watch. -/
def spawn_posix (cmd : String) (osSpawnOk monitor_stdout monitor_stderr : Bool) :
    SpawnResult :=
  match g_shell_parse_argv cmd with
  | none =>
    { error := some parseErrMsg, pipesCreated := 0, childCreated := false
      cstdoutCreated := false, cstderrCreated := false
      stdoutWatched := false, stderrWatched := false, childWatched := false }
  | some _ =>
    if osSpawnOk then
      { error := none, pipesCreated := 3, childCreated := true
        cstdoutCreated := (new_channel monitor_stdout).1
        cstderrCreated := (new_channel monitor_stderr).1
        stdoutWatched := (new_channel monitor_stdout).2
        stderrWatched := (new_channel monitor_stderr).2
        childWatched := true }
    else
      { error := some spawnFailMsg, pipesCreated := 0, childCreated := false
        cstdoutCreated := false, cstderrCreated := false
        stdoutWatched := false, stderrWatched := false, childWatched := false }

/-- the six pipe endpoint handles the Windows spawn path creates with its
three CreatePipe calls (lines 925-932): the child-side stdin read end, the
parent's stdin write handle stored in the Process Handle, the parent-side
stdout and stderr read ends, and the child-side stdout and stderr write
ends.  Each flag records whether that handle is still open. -/
structure WinHandles where
  stdinRead : Bool
  fstdin : Bool
  procStdoutH : Bool
  stdoutWrite : Bool
  procStderrH : Bool
  stderrWrite : Bool
deriving DecidableEq

/-- how many of the six pipe handles are open. -/
def WinHandles.openCount (h : WinHandles) : Nat :=
  (if h.stdinRead then 1 else 0) + (if h.fstdin then 1 else 0) +
    (if h.procStdoutH then 1 else 0) + (if h.stdoutWrite then 1 else 0) +
    (if h.procStderrH then 1 else 0) + (if h.stderrWrite then 1 else 0)

/-- outcome of the Windows spawn path. -/
structure WinSpawnResult where
  error : Option String
  handles : WinHandles
  childCreated : Bool
  cstdoutCreated : Bool
  cstderrCreated : Bool
  cmdLine : String
deriving DecidableEq

/-- the command interpreter prefix (COMSPEC). -/
def comspec : String := "cmd.exe"

/-- message composed by FormatMessageA for a failed CreateProcessA. -/
def createProcessFailMsg : String := "The system cannot find the file specified."

/-- lines 907-957 (spawn, Windows): the command line is not tokenized — it
is prefixed with the interpreter and handed to CreateProcessA as one string
(lines 911-912); the three pipes are created first (lines 925-932); when
CreateProcessA fails the function returns the error with none of the six
pipe handles closed (lines 941-945); on success the three child-side handles
are closed, both read channels are built and the requested watches added. -/
def spawn_win (cmd : String) (createOk monitor_stdout monitor_stderr : Bool) :
    WinSpawnResult :=
  let cmdLine := comspec ++ " /c " ++ cmd
  let pipes : WinHandles :=
    { stdinRead := true, fstdin := true, procStdoutH := true
      stdoutWrite := true, procStderrH := true, stderrWrite := true }
  if createOk then
    { error := none
      handles := { pipes with stdinRead := false, stdoutWrite := false, stderrWrite := false }
      childCreated := true
      cstdoutCreated := (new_channel monitor_stdout).1
      cstderrCreated := (new_channel monitor_stderr).1
      cmdLine := cmdLine }
  else
    { error := some createProcessFailMsg
      handles := pipes
      childCreated := false
      cstdoutCreated := false
      cstderrCreated := false
      cmdLine := cmdLine }

/-- the per-read stripping behaviour claim C5 asserts, relative to the bytes
the line read delivered: a trailing carriage-return-newline pair is removed,
or a trailing newline alone is removed (when no carriage return precedes
it), or — with no trailing newline — nothing is removed. -/
def stripClaimOK (src out : List Char) : Prop :=
  out ++ ['\r', '\n'] = src ∨
    (out ++ ['\n'] = src ∧ out.getLast? ≠ some '\r') ∨
    (src.getLast? ≠ some '\n' ∧ out = src)

instance stripClaimOKDec (src out : List Char) : Decidable (stripClaimOK src out) := by
  unfold stripClaimOK
  exact inferInstance

/-- a command line with an unbalanced double quote. -/
def malformedCmd : String := "grep \"unterminated"

/-- a well-formed command line. -/
def okCmd : String := "echo hello"

/-- the unspecified byte used for the out-of-bounds reads of the strip code
in concrete evaluations. -/
def gX : Char := 'x'

/-- a channel holding unterminated output that ends in a carriage return,
with the stream already ended: the child wrote these bytes and exited. -/
def chLoneCR : Channel :=
  { buffered := false, pending := ['a', 'b', 'c', '\r'], eofFlag := true, failure := none }

/-- a channel with nothing pending on an ended stream: the process exited
and produced no further output. -/
def chEofEmpty : Channel :=
  { buffered := true, pending := [], eofFlag := true, failure := none }

/-- a channel whose next read fails at the OS level. -/
def chFailEx : Channel :=
  { buffered := true, pending := [], eofFlag := false, failure := some ("Input/output error", 5) }

/-- a channel with five bytes ready, used to exercise the Output Monitor's
chunk loop. -/
def chFive : Channel :=
  { buffered := false, pending := ['a', 'b', 'c', 'd', 'e'], eofFlag := false, failure := none }

/-- the invariant tying cleanup to the one-shot structure of its entry
paths: either cleanup has never run, the handle is live and the child watch
registered, or cleanup ran once, the exit callback fired once, the liveness
flag is cleared and the child watch is gone. -/
def cleanupInv (st : ProcState) : Prop :=
  (st.cleanupRuns = 0 ∧ st.exitCallbacks = 0 ∧ st.pid ≠ 0 ∧ st.childWatch = true) ∨
    (st.cleanupRuns = 1 ∧ st.exitCallbacks = 1 ∧ st.pid = 0 ∧ st.childWatch = false)

theorem loopStep_inv (st : ProcState) (e : LoopEvent) (h : cleanupInv st) :
    cleanupInv (loopStep st e) := by
  cases e with
  | childExited raw =>
    rcases h with ⟨h1, h2, h3, h4⟩ | ⟨h1, h2, h3, h4⟩
    · simp [loopStep, h4, proc_exited, cleanup_process, cleanupInv, h1, h2]
    · simp [loopStep, h4, cleanupInv, h1, h2, h3]
  | waitCalled raw =>
    rcases h with ⟨h1, h2, h3, h4⟩ | ⟨h1, h2, h3, h4⟩
    · have hr : is_process_running st = true := by simp [is_process_running, h3]
      simp [loopStep, hr, wait_process, cleanup_process, cleanupInv, h1, h2]
    · have hr : is_process_running st = false := by simp [is_process_running, h3]
      simp [loopStep, hr, cleanupInv, h1, h2, h3, h4]
  | outputReady isStdout keep =>
    rcases h with ⟨h1, h2, h3, h4⟩ | ⟨h1, h2, h3, h4⟩ <;>
      cases isStdout <;>
        simp [loopStep, cleanupInv, h1, h2, h3, h4] <;>
          split <;> simp [h1, h2, h3, h4]

theorem runLoop_inv (es : List LoopEvent) (st : ProcState) (h : cleanupInv st) :
    cleanupInv (runLoop st es) := by
  induction es generalizing st with
  | nil => simpa [runLoop] using h
  | cons e es ih =>
    simpa [runLoop, List.foldl_cons] using ih (loopStep st e) (loopStep_inv st e h)

/-- Claim C1 counterexample: the Cleanup Coordinator's body is not guarded
by the liveness flag.  After one cleanup the flag is cleared (pid = 0), yet
a second invocation still performs its side effects: the exit callback fires
a second time and the stored exit status is overwritten. -/
theorem cleanup_second_call_side_effects :
    (cleanup_process 7 spawnedState).pid = 0 ∧
      (cleanup_process 0 (cleanup_process 7 spawnedState)).exitCallbacks = 2 ∧
      (cleanup_process 0 (cleanup_process 7 spawnedState)).exitStatus ≠
        (cleanup_process 7 spawnedState).exitStatus := by decide

/-- Claim C1 (amended): the Cleanup Coordinator's body runs at most once per
Process Handle — and the exit callback fires at most once — for every
interleaving of child-watch firings, synchronous wait calls and output-watch
callbacks in the single-threaded loop.  The guarantee comes from each path
being one-shot (the body deregisters the child watch, and the wait entry
point runs only on a live handle), not from a liveness-flag check inside the
body, which the body does not perform. -/
theorem cleanup_at_most_once (st : ProcState) (es : List LoopEvent)
    (h1 : st.pid ≠ 0) (h2 : st.childWatch = true)
    (h3 : st.cleanupRuns = 0) (h4 : st.exitCallbacks = 0) :
    (runLoop st es).cleanupRuns ≤ 1 ∧ (runLoop st es).exitCallbacks ≤ 1 := by
  have h := runLoop_inv es st (Or.inl ⟨h3, h4, h1, h2⟩)
  rcases h with ⟨a, b, _, _⟩ | ⟨a, b, _, _⟩ <;> simp [a, b]

/-- witness for cleanup_at_most_once: a concrete spawned handle through a
loop history in which the wait call and the pending child watch race. -/
theorem cleanup_at_most_once_witness :
    spawnedState.pid ≠ 0 ∧
      (runLoop spawnedState
          [.waitCalled 256, .childExited 768, .outputReady true false]).cleanupRuns ≤ 1 :=
  ⟨by decide,
    (cleanup_at_most_once spawnedState
        [.waitCalled 256, .childExited 768, .outputReady true false]
        (by decide) rfl rfl rfl).1⟩

/-- Claim C3 counterexample: a child that exits normally with code 3 reaches
the Exit Monitor as the raw wait status 768, which proc_exited stores
unchanged — not the normalized exit code 3 the claim asserts (which is what
the synchronous wait path would compute from the same raw status). -/
theorem exit_monitor_raw_counterexample :
    (proc_exited (rawExitStatus 3) spawnedState).exitStatus = some 768 ∧
      posixWaitNormalize 768 = 3 ∧ rawExitStatus 3 ≠ 3 := by decide

/-- Claim C3 (amended): the Exit Monitor hands the child-watch status to the
Cleanup Coordinator unchanged (on POSIX that is the raw wait status, 256
times the exit code for a normal exit); the normalization the claim
describes — exit code on normal exit, sentinel 1 on signal termination — is
applied only by the synchronous wait path; on the handle-based platform the
reported exit code is used directly. -/
theorem exit_status_normalization_paths (raw code sig : Nat) (st : ProcState)
    (hc : code < 256) (hs : sig % 128 ≠ 0) :
    (proc_exited raw st).exitStatus = some raw ∧
      posixWaitNormalize (rawExitStatus code) = code ∧
      posixWaitNormalize (rawSignalStatus sig) = 1 ∧
      (wait_process_win code st).exitStatus = some code := by
  refine ⟨rfl, ?_, ?_, rfl⟩
  · have e1 : (code % 256 * 256) % 128 = 0 := by omega
    have e2 : code % 256 * 256 / 256 % 256 = code := by omega
    simp [posixWaitNormalize, wifexited, wexitstatus, rawExitStatus, e1, e2] <;> omega
  · have e3 : sig % 128 % 128 = sig % 128 := by omega
    simp [posixWaitNormalize, wifexited, rawSignalStatus, e3, hs]

/-- witness for exit_status_normalization_paths at a normal exit with code 3
and a termination by signal 9. -/
theorem exit_status_normalization_paths_witness :
    (3 : Nat) < 256 ∧ (9 : Nat) % 128 ≠ 0 ∧ posixWaitNormalize (rawExitStatus 3) = 3 :=
  ⟨by decide, by decide,
    (exit_status_normalization_paths 768 3 9 spawnedState (by decide) (by decide)).2.1⟩

/-- Claim C2: on the handle-based platform, when process creation fails
after the three pipes have been constructed, spawn returns the SpawnError
but closes none of the six pipe endpoints: all six remain open, including
the stdin-write handle already stored in the Process Handle field.  This
evaluates the failure path of the code at a failing input. -/
theorem win_spawn_failure_leaks_handles :
    (spawn_win okCmd false true true).error = some createProcessFailMsg ∧
      (spawn_win okCmd false true true).handles.openCount = 6 ∧
      (spawn_win okCmd false true true).handles.fstdin = true ∧
      (spawn_win okCmd false true true).childCreated = false := by decide

/-- Claim C7 counterexample: on the handle-based platform a command line
with an unbalanced quote is not tokenized at all — the spawn passes it to
the command interpreter, creates the pipes, and can succeed with no
SpawnError, although the tokenizer rejects that command line. -/
theorem win_spawn_skips_tokenization :
    g_shell_parse_argv malformedCmd = none ∧
      (spawn_win malformedCmd true false false).error = none ∧
      (spawn_win malformedCmd true false false).childCreated = true ∧
      (spawn_win malformedCmd true false false).handles.fstdin = true := by decide

/-- Claim C7 (amended): on the POSIX path a malformed command line fails
tokenization and spawn returns a SpawnError before any pipe is constructed
or any child created; the handle-based path performs no tokenization. -/
theorem posix_malformed_spawn_fails_early (cmd : String) (ok ms me : Bool)
    (h : g_shell_parse_argv cmd = none) :
    (spawn_posix cmd ok ms me).error = some parseErrMsg ∧
      (spawn_posix cmd ok ms me).pipesCreated = 0 ∧
      (spawn_posix cmd ok ms me).childCreated = false ∧
      (spawn_posix cmd ok ms me).cstdoutCreated = false := by
  simp [spawn_posix, h]

/-- witness for posix_malformed_spawn_fails_early on a command line with an
unbalanced double quote. -/
theorem posix_malformed_spawn_fails_early_witness :
    g_shell_parse_argv malformedCmd = none ∧
      (spawn_posix malformedCmd true true true).pipesCreated = 0 :=
  ⟨by decide, (posix_malformed_spawn_fails_early malformedCmd true true true (by decide)).2.1⟩

/-- Claim C10: every successful spawn constructs read channels for both
stdout and stderr unconditionally; the monitor flags decide only whether an
event-loop watch is registered on each channel, and the exit watch is always
registered — so manual stdout reads work whatever the monitor flags were. -/
theorem spawn_channels_unconditional (cmd : String) (argv : List (List Char)) (ms me : Bool)
    (h : g_shell_parse_argv cmd = some argv) :
    (spawn_posix cmd true ms me).error = none ∧
      (spawn_posix cmd true ms me).cstdoutCreated = true ∧
      (spawn_posix cmd true ms me).cstderrCreated = true ∧
      (spawn_posix cmd true ms me).stdoutWatched = ms ∧
      (spawn_posix cmd true ms me).stderrWatched = me ∧
      (spawn_posix cmd true ms me).childWatched = true := by
  simp [spawn_posix, h, new_channel]

/-- witness for spawn_channels_unconditional: a spawn that does not request
stdout monitoring still gets its stdout channel. -/
theorem spawn_channels_unconditional_witness :
    g_shell_parse_argv okCmd = some [['e', 'c', 'h', 'o'], ['h', 'e', 'l', 'l', 'o']] ∧
      (spawn_posix okCmd true false true).cstdoutCreated = true :=
  ⟨by decide,
    (spawn_channels_unconditional okCmd [['e', 'c', 'h', 'o'], ['h', 'e', 'l', 'l', 'o']]
        false true (by decide)).2.1⟩

/-- Claim C8: an Output Monitor callback on a Process Handle whose liveness
flag is already cleared performs no read, delivers nothing to the sink,
returns false to deregister itself, and leaves the channel untouched. -/
theorem read_channel_dead_handle_noop (bufsiz : Nat) (hasIn hasHup isStdout : Bool)
    (ch : Channel) :
    read_channel bufsiz 0 hasIn hasHup isStdout ch = ⟨false, [], ch⟩ := by
  simp [read_channel]

theorem readLoop_empty (bufsiz : Nat) (hb : 0 < bufsiz) (ch : Channel)
    (hp : ch.pending = []) : readLoop bufsiz ch = ([], ch) := by
  rw [readLoop]
  have hg : ¬((g_io_channel_read_chars bufsiz ch).bytes.length = bufsiz ∧ 0 < bufsiz) := by
    rcases hf : ch.failure with _ | e <;>
      rcases he : ch.eofFlag <;>
        simp [g_io_channel_read_chars, hf, he, hp] <;> omega
  rw [dif_neg hg]
  rcases hf : ch.failure with _ | e <;>
    rcases he : ch.eofFlag <;>
      simp [g_io_channel_read_chars, hf, he, hp]

theorem readLoop_short (bufsiz : Nat) (ch : Channel) (hf : ch.failure = none)
    (hne : ch.pending ≠ []) (hlt : ch.pending.length < bufsiz) :
    readLoop bufsiz ch = ([ch.pending], { ch with pending := [] }) := by
  have hread : g_io_channel_read_chars bufsiz ch =
      ⟨.normal, ch.pending.take bufsiz, { ch with pending := ch.pending.drop bufsiz }, none⟩ := by
    rcases hp : ch.pending with _ | ⟨c, cs⟩
    · exact absurd hp hne
    · simp [g_io_channel_read_chars, hf, hp]
  have htake : ch.pending.take bufsiz = ch.pending := List.take_of_length_le (le_of_lt hlt)
  have hdrop : ch.pending.drop bufsiz = [] := List.drop_eq_nil_of_le (le_of_lt hlt)
  have hcond : ¬(ch.pending.length = bufsiz ∧ 0 < bufsiz) := by omega
  rw [readLoop, hread]
  simp [htake, hdrop, hcond, hne]

theorem readLoop_full (bufsiz : Nat) (hb : 0 < bufsiz) (ch : Channel)
    (hf : ch.failure = none) (hge : bufsiz ≤ ch.pending.length) :
    readLoop bufsiz ch =
      (ch.pending.take bufsiz ::
          (readLoop bufsiz { ch with pending := ch.pending.drop bufsiz }).1,
        (readLoop bufsiz { ch with pending := ch.pending.drop bufsiz }).2) := by
  have hne : ch.pending ≠ [] := by
    intro h; rw [h] at hge; simp at hge; omega
  have hread : g_io_channel_read_chars bufsiz ch =
      ⟨.normal, ch.pending.take bufsiz, { ch with pending := ch.pending.drop bufsiz }, none⟩ := by
    rcases hp : ch.pending with _ | ⟨c, cs⟩
    · exact absurd hp hne
    · simp [g_io_channel_read_chars, hf, hp]
  have htlen : (ch.pending.take bufsiz).length = bufsiz := by
    simp [List.length_take]; omega
  have htne : ch.pending.take bufsiz ≠ [] := by
    intro h; rw [h] at htlen; simp at htlen; omega
  rw [readLoop, hread]
  simp [htlen, hb, htne]

theorem readLoop_spec (bufsiz : Nat) (hb : 0 < bufsiz) (fuel : Nat) :
    ∀ ch : Channel, ch.pending.length ≤ fuel → ch.failure = none →
      (readLoop bufsiz ch).1.flatten = ch.pending ∧
        ∀ c ∈ (readLoop bufsiz ch).1, c ≠ [] ∧ c.length ≤ bufsiz := by
  induction fuel with
  | zero =>
    intro ch hlen hf
    have hp : ch.pending = [] := List.eq_nil_of_length_eq_zero (Nat.le_zero.mp hlen)
    simp [readLoop_empty bufsiz hb ch hp, hp]
  | succ n ih =>
    intro ch hlen hf
    rcases hp : ch.pending with _ | ⟨c, cs⟩
    · simp [readLoop_empty bufsiz hb ch hp, hp]
    · by_cases hlt : ch.pending.length < bufsiz
      · -- fewer bytes available than requested: a single short read ends the loop
        rw [readLoop_short bufsiz ch hf (by simp [hp]) hlt]
        simp [hp] at hlt ⊢
        omega
      · -- a full chunk was read: the loop continues on the rest
        have hge : bufsiz ≤ ch.pending.length := by omega
        have hlenp : ch.pending.length = cs.length + 1 := by simp [hp]
        have hrec := ih { ch with pending := ch.pending.drop bufsiz }
          (by simp [List.length_drop]; omega) (by simp [hf])
        have hpr : ({ ch with pending := ch.pending.drop bufsiz } : Channel).pending
            = ch.pending.drop bufsiz := rfl
        rw [readLoop_full bufsiz hb ch hf hge]
        have htlen : (ch.pending.take bufsiz).length = bufsiz := by
          simp [List.length_take]; omega
        have htne : ch.pending.take bufsiz ≠ [] := by
          intro h; rw [h] at htlen; simp at htlen; omega
        constructor
        · simp only [List.flatten_cons, hrec.1, hpr]
          rw [List.take_append_drop]
          exact hp
        · intro d hd
          rcases List.mem_cons.mp hd with hd | hd
          · subst hd; exact ⟨htne, le_of_eq htlen⟩
          · exact hrec.2 d hd

/-- Claim C4: on a readiness notification for a live handle the Output
Monitor reads in chunks of at most BUFSIZ bytes until a read returns fewer
bytes than requested or none, and forwards every non-empty chunk read with
normal status to the sink, each tagged with the stream it came from; the
forwarded chunks reassemble exactly the available bytes. -/
theorem read_channel_forwards_chunks (bufsiz pid : Nat) (hasHup isStdout : Bool)
    (ch : Channel) (hb : 0 < bufsiz) (hpid : pid ≠ 0) (hf : ch.failure = none) :
    ((read_channel bufsiz pid true hasHup isStdout ch).delivered.map Chunk.bytes).flatten =
        ch.pending ∧
      ∀ k ∈ (read_channel bufsiz pid true hasHup isStdout ch).delivered,
        k.bytes ≠ [] ∧ k.bytes.length ≤ bufsiz ∧ k.isStdout = isStdout := by
  have hspec := readLoop_spec bufsiz hb ch.pending.length ch le_rfl hf
  have hcond : ¬(pid = 0 ∨ (true : Bool) = false) := by simp [hpid]
  have hmap : ∀ l : List (List Char),
      List.map Chunk.bytes (l.map fun b => (⟨b, isStdout⟩ : Chunk)) = l := by
    intro l
    induction l with
    | nil => rfl
    | cons x xs ihx => simp [ihx]
  constructor
  · rw [read_channel, if_neg hcond]
    simpa [hmap] using hspec.1
  · intro k hk
    rw [read_channel, if_neg hcond] at hk
    simp only [List.mem_map] at hk
    rcases hk with ⟨b, hb2, rfl⟩
    have := hspec.2 b hb2
    exact ⟨this.1, this.2, rfl⟩

theorem readPre_buffered (ch : Channel) : (readPre ch).buffered = true := by
  unfold readPre
  rcases hb : ch.buffered <;> simp [hb]

theorem read_line_buffered (ch : Channel) :
    (g_io_channel_read_line_string ch).channel.buffered = ch.buffered := by
  unfold g_io_channel_read_line_string
  rcases hf : ch.failure with _ | e
  · rcases hs : splitAtNewline ch.pending with _ | ⟨l, r⟩
    · rcases he : ch.eofFlag <;> rcases hi : ch.pending.isEmpty <;> simp [hf, hs, he, hi]
    · simp [hf, hs]
  · simp [hf]

theorem read_to_end_buffered (ch : Channel) :
    (g_io_channel_read_to_end ch).channel.buffered = ch.buffered := by
  unfold g_io_channel_read_to_end
  rcases hf : ch.failure with _ | e
  · rcases he : ch.eofFlag <;> rcases hi : ch.pending.isEmpty <;> simp [hf, he, hi]
  · simp [hf]

theorem read_chars_buffered (n : Nat) (ch : Channel) :
    (g_io_channel_read_chars n ch).channel.buffered = ch.buffered := by
  unfold g_io_channel_read_chars
  rcases hf : ch.failure with _ | e
  · rcases he : ch.eofFlag <;> rcases hi : ch.pending.isEmpty <;> simp [hf, he, hi]
  · simp [hf]

theorem primFor_buffered (mode : ReadMode) (n : Nat) (ch : Channel) :
    (primFor mode n ch).channel.buffered = ch.buffered := by
  cases mode <;>
    simp [primFor, read_line_buffered, read_to_end_buffered, read_chars_buffered]

theorem rpo_channel (g : Char) (mode : ReadMode) (n : Nat) (ch : Channel) :
    (read_process_output g mode n ch).2.2 =
      afterToggle (primFor mode n (readPre ch)).channel := by
  rcases hs : (primFor mode n (readPre ch)).status <;>
    simp [read_process_output, hs]

theorem afterToggle_buffered_iff (ch : Channel) (h : ch.buffered = true) :
    (afterToggle ch).buffered = true ↔ (afterToggle ch).pending ≠ [] := by
  rcases hp : ch.pending with _ | ⟨c, cs⟩ <;> simp [afterToggle, hp, h]

/-- Claim C9: every manual read runs against the stdout transport in
buffered mode (switching it on beforehand when needed), and afterwards the
transport is left buffered exactly when bytes remain immediately available
in the channel's buffer — it is switched back to unbuffered mode iff none
remain. -/
theorem manual_read_buffer_mode (g : Char) (mode : ReadMode) (n : Nat) (ch : Channel) :
    (readPre ch).buffered = true ∧
      ((read_process_output g mode n ch).2.2.buffered = true ↔
        (read_process_output g mode n ch).2.2.pending ≠ []) := by
  refine ⟨readPre_buffered ch, ?_⟩
  rw [rpo_channel]
  refine afterToggle_buffered_iff _ ?_
  rw [primFor_buffered]
  exact readPre_buffered ch

/-- witness for read_channel_forwards_chunks: five available bytes drained
in chunks of three. -/
theorem read_channel_forwards_chunks_witness :
    (0 : Nat) < 3 ∧ (7 : Nat) ≠ 0 ∧ chFive.failure = none ∧
      ((read_channel 3 7 true false true chFive).delivered.map Chunk.bytes).flatten =
        chFive.pending :=
  ⟨by decide, by decide, rfl,
    (read_channel_forwards_chunks 3 7 false true chFive (by decide) (by decide) rfl).1⟩

/-- Claim C6 counterexample: reaching end-of-stream in to-end mode does not
yield the distinct no-more-data result (NULL buffer with NULL error): the
EOF status is converted to normal status (line 987) and the read returns an
empty byte buffer instead. -/
theorem read_to_end_eof_not_distinct :
    (read_process_output gX .toEnd 0 chEofEmpty).1 = .bytes [] ∧
      (read_process_output gX .toEnd 0 chEofEmpty).1 ≠ .endOfStream := by decide

/-- Claim C6 (amended): line mode and n-bytes mode map end-of-stream to the
distinct no-more-data result — in particular a process that exited with no
pending output yields end-of-stream, not an error — while to-end mode maps
it to a successful empty read; an OS-level read failure yields a ReadError
carrying the OS message and code in every mode; the two outcomes are never
conflated. -/
theorem manual_read_eof_vs_error (g : Char) (n : Nat) (ch chf : Channel)
    (msg : String) (code : Int)
    (h1 : ch.failure = none) (h2 : ch.eofFlag = true) (h3 : ch.pending = [])
    (h4 : chf.failure = some (msg, code)) :
    (read_process_output g .line n ch).1 = .endOfStream ∧
      (read_process_output g .count n ch).1 = .endOfStream ∧
      (read_process_output g .toEnd n ch).1 = .bytes [] ∧
      (read_process_output g .line n chf).1 = .readError msg code ∧
      (read_process_output g .count n chf).1 = .readError msg code ∧
      (read_process_output g .toEnd n chf).1 = .readError msg code := by
  obtain ⟨cb, cp, ce, cf⟩ := ch
  obtain ⟨fb, fp, fe, ff⟩ := chf
  simp only at h1 h2 h3 h4
  subst h1 h2 h3 h4
  rcases cb <;> rcases fb <;>
    simp [read_process_output, primFor, readPre, afterToggle,
      g_io_channel_read_line_string, g_io_channel_read_to_end,
      g_io_channel_read_chars, splitAtNewline, dfltErr]

/-- witness for manual_read_eof_vs_error: an exhausted channel and a
channel whose read fails with an I/O error. -/
theorem manual_read_eof_vs_error_witness :
    chEofEmpty.failure = none ∧ chFailEx.failure = some ("Input/output error", 5) ∧
      (read_process_output gX .line 0 chEofEmpty).1 = .endOfStream ∧
      (read_process_output gX .line 0 chFailEx).1 =
        .readError "Input/output error" 5 :=
  ⟨rfl, rfl,
    (manual_read_eof_vs_error gX 0 chEofEmpty chFailEx "Input/output error" 5
        rfl rfl rfl rfl).1,
    (manual_read_eof_vs_error gX 0 chEofEmpty chFailEx "Input/output error" 5
        rfl rfl rfl rfl).2.2.2.1⟩

theorem getD_append_cons (g : Char) (ys : List Char) (c : Char) (zs : List Char) :
    (ys ++ c :: zs).getD ys.length g = c := by
  induction ys with
  | nil => rfl
  | cons y ys ih => simpa using ih

theorem charAtIdx_getD (g : Char) (buf : List Char) (k : Nat) (hk : k < buf.length) :
    charAtIdx g buf (k : Int) = buf.getD k g := by
  have hin : (0 : Int) ≤ (k : Int) ∧ (k : Int) < (buf.length : Int) :=
    ⟨Int.natCast_nonneg _, by exact_mod_cast hk⟩
  simp only [charAtIdx, if_pos hin, Int.toNat_natCast]

theorem lineStripLen_two (g : Char) (zs : List Char) (d : Char) :
    lineStripLen g (zs ++ [d, '\n']) = if d = '\r' then zs.length else zs.length + 1 := by
  have hL : (zs ++ [d, '\n']).length = zs.length + 2 := by simp
  have h1 : charAtIdx g (zs ++ [d, '\n']) (((zs ++ [d, '\n']).length : Int) - 1) = '\n' := by
    have hi : (((zs ++ [d, '\n']).length : Nat) : Int) - 1 = ((zs.length + 1 : Nat) : Int) := by
      rw [hL]; omega
    have hk : zs.length + 1 < (zs ++ [d, '\n']).length := by rw [hL]; omega
    rw [hi, charAtIdx_getD g _ _ hk]
    have : (zs ++ [d, '\n']).getD (zs.length + 1) g =
        ((zs ++ [d]) ++ ['\n']).getD ((zs ++ [d]).length) g := by
      simp [List.append_assoc]
    rw [this, getD_append_cons]
  have h2 : charAtIdx g (zs ++ [d, '\n'])
      ((((zs ++ [d, '\n']).length - 1 : Nat) : Int) - 1) = d := by
    have hi : (((zs ++ [d, '\n']).length - 1 : Nat) : Int) - 1 = ((zs.length : Nat) : Int) := by
      rw [hL]; omega
    have hk : zs.length < (zs ++ [d, '\n']).length := by rw [hL]; omega
    rw [hi, charAtIdx_getD g _ _ hk, getD_append_cons]
  simp only [lineStripLen]
  rw [h1]
  have h3 : (if ('\n' : Char) = '\n' then (zs ++ [d, '\n']).length - 1
      else (zs ++ [d, '\n']).length) = (zs ++ [d, '\n']).length - 1 := if_pos rfl
  rw [h3, h2, hL]
  by_cases hd : d = '\r' <;> simp [hd]

theorem lineStripLen_noNl (g : Char) (ys : List Char) (c : Char) (hc : c ≠ '\n') :
    lineStripLen g (ys ++ [c]) = if c = '\r' then ys.length else ys.length + 1 := by
  have hL : (ys ++ [c]).length = ys.length + 1 := by simp
  have h1 : charAtIdx g (ys ++ [c]) (((ys ++ [c]).length : Int) - 1) = c := by
    have hi : (((ys ++ [c]).length : Nat) : Int) - 1 = ((ys.length : Nat) : Int) := by
      rw [hL]; omega
    have hk : ys.length < (ys ++ [c]).length := by rw [hL]; omega
    rw [hi, charAtIdx_getD g _ _ hk, getD_append_cons]
  simp only [lineStripLen]
  rw [h1]
  have h3 : (if c = '\n' then (ys ++ [c]).length - 1 else (ys ++ [c]).length)
      = (ys ++ [c]).length := if_neg hc
  rw [h3, h1, hL]
  by_cases hcr : c = '\r' <;> simp [hcr]

/-- Claim C5 counterexample: a line-mode read of unterminated output ending
in a carriage return (the child wrote these bytes without a newline and
exited) returns the bytes with the final carriage return stripped, although
that byte is neither a lone newline nor part of a carriage-return-newline
pair — violating the asserted stripping discipline. -/
theorem line_strip_lone_cr_counterexample :
    (read_process_output gX .line 0 chLoneCR).1 = .bytes ['a', 'b', 'c'] ∧
      ¬stripClaimOK ['a', 'b', 'c', '\r'] ['a', 'b', 'c'] := by
  constructor
  · decide
  · unfold stripClaimOK
    decide

/-- Claim C5 (amended): for every line-mode read whose buffer is non-empty
and not the bare newline (in those two cases the second length test indexes
outside the buffer), the strip removes at most one trailing newline and then
at most one trailing carriage return: the removed suffix is empty, a
newline, a carriage-return-newline pair, or a lone carriage return, and no
interior byte is ever removed (the kept bytes are exactly the prefix of the
buffer at the stripped length). -/
theorem line_strip_suffix (g : Char) (buf : List Char) (h1 : buf ≠ []) (h2 : buf ≠ ['\n']) :
    lineStripLen g buf ≤ buf.length ∧
      buf.drop (lineStripLen g buf) ∈ [([] : List Char), ['\n'], ['\r'], ['\r', '\n']] := by
  induction buf using List.reverseRecOn with
  | nil => exact absurd rfl h1
  | append_singleton ys c _ =>
    by_cases hc : c = '\n'
    · subst hc
      induction ys using List.reverseRecOn with
      | nil => simp at h2
      | append_singleton zs d _ =>
        have hb : (zs ++ [d]) ++ ['\n'] = zs ++ [d, '\n'] := by simp
        by_cases hd : d = '\r'
        · subst hd
          have hv : lineStripLen g (zs ++ ['\r', '\n']) = zs.length := by
            rw [lineStripLen_two]; simp
          rw [hb, hv]
          refine ⟨by simp, ?_⟩
          rw [List.drop_left]
          decide
        · have hv : lineStripLen g (zs ++ [d, '\n']) = zs.length + 1 := by
            rw [lineStripLen_two]; simp [hd]
          rw [hb, hv]
          refine ⟨by simp, ?_⟩
          have hdrop : (zs ++ [d, '\n']).drop (zs.length + 1) = ['\n'] := by
            have he : zs.length + 1 = (zs ++ [d]).length := by simp
            rw [← hb, he, List.drop_left]
          rw [hdrop]
          decide
    · by_cases hcr : c = '\r'
      · subst hcr
        have hv : lineStripLen g (ys ++ ['\r']) = ys.length := by
          rw [lineStripLen_noNl g ys _ hc]; simp
        rw [hv]
        refine ⟨by simp, ?_⟩
        rw [List.drop_left]
        decide
      · have hv : lineStripLen g (ys ++ [c]) = ys.length + 1 := by
          rw [lineStripLen_noNl g ys c hc]; simp [hcr]
        rw [hv]
        refine ⟨by simp, ?_⟩
        have hdrop : (ys ++ [c]).drop (ys.length + 1) = [] := by
          have he : ys.length + 1 = (ys ++ [c]).length := by simp
          rw [he, List.drop_length]
        rw [hdrop]
        decide

/-- witness for line_strip_suffix on a newline-terminated two-byte line. -/
theorem line_strip_suffix_witness :
    (['a', '\n'] : List Char) ≠ [] ∧ (['a', '\n'] : List Char) ≠ ['\n'] ∧
      lineStripLen gX ['a', '\n'] ≤ (['a', '\n'] : List Char).length :=
  ⟨by decide, by decide, (line_strip_suffix gX ['a', '\n'] (by decide) (by decide)).1⟩

end Textadept
